import Mathlib

/-!
Verification of the grid-sweep script of the Waveguide repository
(`scripts/run_grid_sweep.py`).

The script is a thin orchestration layer: a double loop over two parameter
lists that, for each grid point, derives a bias factor and a measurement-flip
probability from the pump strength, calls an external noisy-circuit evaluator
(Stim + PyMatching), and aggregates the returned logical error rates into a
table that is persisted as a CSV file and a plot.

Embedding choices:
* Python floats are embedded as `ℚ` (exact rationals); the arithmetic the
  script performs on them (`kappa2_hz / 50_000`, `p_phys / beta`, `k2 * 1e3`)
  is exact in the relevant range.
* The external evaluator (circuit generation, detector-error model, sampling,
  decoding, lines 54-67 of the script) is opaque: it is a parameter
  `eval : EvalArgs → ℚ` (or `EvalArgs → Except ε ℚ` in the fallible model)
  receiving exactly the keyword arguments the script passes to it.
* Python exceptions are embedded with `Except`: `logical_error_rateE`,
  `run_sweepE` and `main` model the exception-propagating behaviour,
  including the `ZeroDivisionError` branch of `p_phys / beta` and
  `raise SystemExit(1)`; `logical_error_rate` / `run_sweep` are the same
  functions specialised to a total evaluator (see `run_sweepE_pure`).
* Filesystem effects of `main` (mkdir, CSV write, figure save) are embedded
  as a returned list of `FsAction`s, in program order.
-/

namespace Waveguide

/-- The keyword arguments `logical_error_rate` passes to the external
noisy-circuit evaluator (`stim.Circuit.generated` + sampling + decoding,
lines 54-67): code distance, number of rounds, depolarisation probability,
measurement flip probability, and the number of shots. -/
structure EvalArgs where
  distance : ℤ
  rounds : ℤ
  after_clifford_depolarization : ℚ
  before_measure_flip_probability : ℚ
  shots : ℤ
  deriving DecidableEq

/-- One record appended by `run_sweep` (line 91 of the script):
`{"N_r": N_r, "kappa2_kHz": k2, "eps_log": eps_log}`.  The field order is the
dict key order, which fixes the DataFrame column order. -/
structure ResultRow where
  N_r : ℤ
  kappa2_kHz : ℚ
  eps_log : ℚ
  deriving DecidableEq

/-- `logical_error_rate(N_r, kappa2_hz, shots, p_phys=1e-3)` (lines 33-67),
with the opaque evaluator abstracted as `eval`.  The script computes
`beta = kappa2_hz / 50_000.0`, `meas_flip = p_phys / beta`, and hands
distance 3, `rounds = N_r`, `after_clifford_depolarization = p_phys`,
`before_measure_flip_probability = meas_flip` and `shots` to Stim/PyMatching.
`p_phys` is an explicit argument here; the Python default is `1e-3` (embedded
exactly as `1/1000`) and every caller in the repository uses that default. -/
def logical_error_rate (eval : EvalArgs → ℚ) (N_r : ℤ) (kappa2_hz : ℚ)
    (shots : ℤ) (p_phys : ℚ) : ℚ :=
  let beta := kappa2_hz / 50000
  let meas_flip := p_phys / beta
  eval { distance := 3, rounds := N_r, after_clifford_depolarization := p_phys,
         before_measure_flip_probability := meas_flip, shots := shots }

/-- The Python default `p_phys = 1e-3` of `logical_error_rate` (line 33),
as an exact rational. -/
def p_phys_default : ℚ := 1/1000

/-- The record built for one grid point (lines 90-91):
`eps_log = logical_error_rate(N_r, k2 * 1e3, shots)` with the default
`p_phys = 1e-3`, stored alongside `N_r` and `k2`. -/
def sweepRow (eval : EvalArgs → ℚ) (shots : ℤ) (N_r : ℤ) (k2 : ℚ) : ResultRow :=
  { N_r := N_r, kappa2_kHz := k2,
    eps_log := logical_error_rate eval N_r (k2 * 1000) shots p_phys_default }

/-- `run_sweep(N_r_values, kappa2_kHz, shots)` (lines 70-92): the nested loop
(outer over `N_r_values`, inner over `kappa2_kHz`) appending one record per
grid point; the resulting list of records is the DataFrame's row list. -/
def run_sweep (eval : EvalArgs → ℚ) (N_r_values : List ℤ) (kappa2_kHz : List ℚ)
    (shots : ℤ) : List ResultRow :=
  N_r_values.flatMap fun N_r => kappa2_kHz.map (sweepRow eval shots N_r)

/-! ### Fallible model

Python exceptions made explicit.  An exception escaping any of the script's
functions aborts the process, so every error constructor below corresponds
to an uncaught exception (or `SystemExit`). -/

/-- The errors that can escape the script: the `ZeroDivisionError` of
`p_phys / beta` (line 53), an exception raised inside the external evaluator
(lines 54-65), and the `SystemExit(code)` raised by `main` (line 112). -/
inductive SweepError (ε : Type) where
  | zeroDivision
  | evaluator (e : ε)
  | usageExit (code : Nat)
  deriving DecidableEq

/-- `logical_error_rate` with exceptions explicit: Python float division
`p_phys / beta` raises `ZeroDivisionError` when `beta = 0`, and an exception
raised by the evaluator propagates unchanged. -/
def logical_error_rateE {ε : Type} (eval : EvalArgs → Except ε ℚ) (N_r : ℤ)
    (kappa2_hz : ℚ) (shots : ℤ) (p_phys : ℚ) : Except (SweepError ε) ℚ :=
  let beta := kappa2_hz / 50000
  if beta = 0 then Except.error SweepError.zeroDivision
  else
    let meas_flip := p_phys / beta
    match eval { distance := 3, rounds := N_r,
                 after_clifford_depolarization := p_phys,
                 before_measure_flip_probability := meas_flip,
                 shots := shots } with
    | Except.ok v => Except.ok v
    | Except.error e => Except.error (SweepError.evaluator e)

/-- The inner loop of `run_sweep` (lines 89-91) with exceptions explicit:
iterate over the pump strengths, appending one record per point to the
accumulated record list; the first exception aborts the loop. -/
def sweepInnerE {ε : Type} (eval : EvalArgs → Except ε ℚ) (N_r : ℤ)
    (shots : ℤ) (acc : List ResultRow) :
    List ℚ → Except (SweepError ε) (List ResultRow)
  | [] => Except.ok acc
  | k2 :: rest =>
    match logical_error_rateE eval N_r (k2 * 1000) shots p_phys_default with
    | Except.error e => Except.error e
    | Except.ok eps =>
      sweepInnerE eval N_r shots
        (acc ++ [{ N_r := N_r, kappa2_kHz := k2, eps_log := eps }]) rest

/-- The outer loop of `run_sweep` (lines 88-91) with exceptions explicit. -/
def sweepOuterE {ε : Type} (eval : EvalArgs → Except ε ℚ) (kappa2_kHz : List ℚ)
    (shots : ℤ) (acc : List ResultRow) :
    List ℤ → Except (SweepError ε) (List ResultRow)
  | [] => Except.ok acc
  | N_r :: rest =>
    match sweepInnerE eval N_r shots acc kappa2_kHz with
    | Except.error e => Except.error e
    | Except.ok acc2 => sweepOuterE eval kappa2_kHz shots acc2 rest

/-- `run_sweep` with exceptions explicit: the nested loop starting from the
empty record list. -/
def run_sweepE {ε : Type} (eval : EvalArgs → Except ε ℚ) (N_r_values : List ℤ)
    (kappa2_kHz : List ℚ) (shots : ℤ) : Except (SweepError ε) (List ResultRow) :=
  sweepOuterE eval kappa2_kHz shots [] N_r_values

/-! ### The entry point and its filesystem effects -/

/-- The persisted CSV: `df.to_csv(csv_path, index=False)` writes one header
line joining the column names with commas, then the rows in table order.
The column names are the dict key order of the records built on line 91. -/
structure CsvFile where
  header : String
  rows : List ResultRow
  deriving DecidableEq

/-- The DataFrame column names, in order: the key order of the record dicts
appended by `run_sweep` (line 91). -/
def csvColumns : List String := ["N_r", "kappa2_kHz", "eps_log"]

/-- The CSV content `to_csv` produces for a row table (header from
`csvColumns`, then the rows in table order). -/
def to_csv (df : List ResultRow) : CsvFile :=
  { header := String.intercalate "," csvColumns, rows := df }

/-- A filesystem effect of `main`, in program order:
`results_dir.mkdir(exist_ok=True)` (line 120), `df.to_csv(csv_path)`
(line 122), `fig.savefig(...)` (line 132). -/
inductive FsAction where
  | mkdir (path : String) (exist_ok : Bool)
  | writeCsv (path : String) (content : CsvFile)
  | savefig (path : String)
  deriving DecidableEq

/-- The fixed ring-count list `N_r_values = [3, 5, 7]` (line 114). -/
def defaultRingCounts : List ℤ := [3, 5, 7]

/-- The fixed pump-strength list `kappa2_values = [50.0, 150.0, 300.0]`
(line 115), in kHz, as exact rationals. -/
def defaultPumpStrengths : List ℚ := [50, 150, 300]

/-- The argparse default for `--shots`: `int(1e4) = 10000` (line 101). -/
def defaultShots : ℤ := 10000

/-- `main` (lines 95-136) after argument parsing, with `shots` the parsed
`--shots` value: raise `SystemExit(1)` if `shots <= 0` (lines 111-112),
run the sweep over the fixed grid (an exception propagates unchanged and
aborts before any file is touched), then create the results directory and
write the CSV and the plot.  The returned list is the sequence of filesystem
effects, in program order. -/
def main {ε : Type} (eval : EvalArgs → Except ε ℚ) (shots : ℤ) :
    Except (SweepError ε) (List FsAction) :=
  if shots ≤ 0 then Except.error (SweepError.usageExit 1)
  else
    match run_sweepE eval defaultRingCounts defaultPumpStrengths shots with
    | Except.error e => Except.error e
    | Except.ok df =>
      Except.ok [FsAction.mkdir "results" true,
                 FsAction.writeCsv "results/epsilon_log.csv" (to_csv df),
                 FsAction.savefig "results/grid_sweep.png"]

/-! ### Structural lemmas about the sweep table -/

/-- Unfolding one step of the outer loop of `run_sweep`. -/
theorem run_sweep_cons (eval : EvalArgs → ℚ) (n : ℤ) (N : List ℤ)
    (K : List ℚ) (s : ℤ) :
    run_sweep eval (n :: N) K s =
      K.map (sweepRow eval s n) ++ run_sweep eval N K s := by
  simp [run_sweep]

/-- The sweep table has one row per grid point. -/
theorem run_sweep_length (eval : EvalArgs → ℚ) (N : List ℤ) (K : List ℚ)
    (s : ℤ) : (run_sweep eval N K s).length = N.length * K.length := by
  induction N with
  | nil => simp [run_sweep]
  | cons n N ih =>
    rw [run_sweep_cons]
    simp only [List.length_append, List.length_map, ih, List.length_cons]
    ring

/-- The row of the sweep table at flat index `i * K.length + j` is the record
for the `i`-th ring count and the `j`-th pump strength. -/
theorem run_sweep_getElem? (eval : EvalArgs → ℚ) (N : List ℤ) (K : List ℚ)
    (s : ℤ) (i j : ℕ) (hi : i < N.length) (hj : j < K.length) :
    (run_sweep eval N K s)[i * K.length + j]? =
      some (sweepRow eval s N[i] K[j]) := by
  induction N generalizing i with
  | nil => simp at hi
  | cons n N ih =>
    rw [run_sweep_cons]
    cases i with
    | zero =>
      have hj2 : 0 * K.length + j < (K.map (sweepRow eval s n)).length := by
        simpa using hj
      rw [List.getElem?_append_left hj2]
      simp [List.getElem?_map, List.getElem?_eq_getElem hj]
    | succ i =>
      have harith : (i + 1) * K.length + j = K.length + (i * K.length + j) := by
        ring
      have hlen : (K.map (sweepRow eval s n)).length ≤ (i + 1) * K.length + j := by
        simp only [List.length_map, harith]
        omega
      rw [List.getElem?_append_right hlen]
      have hi2 : i < N.length := by simpa using Nat.lt_of_succ_lt_succ hi
      have : (i + 1) * K.length + j - (K.map (sweepRow eval s n)).length =
          i * K.length + j := by
        simp only [List.length_map, harith]
        omega
      rw [this, ih i hi2]
      simp

/-- The projection of a sweep row onto its grid coordinates. -/
def rowPair (r : ResultRow) : ℤ × ℚ := (r.N_r, r.kappa2_kHz)

/-- Projecting the sweep table onto the grid coordinates yields exactly the
cross product of the two parameter lists, in nested-iteration order. -/
theorem run_sweep_map_rowPair (eval : EvalArgs → ℚ) (N : List ℤ) (K : List ℚ)
    (s : ℤ) :
    (run_sweep eval N K s).map rowPair =
      N.flatMap fun n => K.map fun k => (n, k) := by
  induction N with
  | nil => simp [run_sweep]
  | cons n N ih =>
    rw [run_sweep_cons]
    simp only [List.map_append, ih, List.flatMap_cons, List.map_map]
    congr 1

/-- When both parameter lists are duplicate-free, the grid coordinates of the
sweep rows are pairwise distinct. -/
theorem run_sweep_rowPair_nodup (eval : EvalArgs → ℚ) (N : List ℤ)
    (K : List ℚ) (s : ℤ) (hN : N.Nodup) (hK : K.Nodup) :
    ((run_sweep eval N K s).map rowPair).Nodup := by
  rw [run_sweep_map_rowPair]
  rw [List.nodup_flatMap]
  refine ⟨fun n _ => hK.map fun k k2 hk => ?_, ?_⟩
  · exact (Prod.mk.injEq n k n k2).mp hk |>.2
  · refine hN.imp ?_
    intro n n2 hne p hp hp2
    simp only [List.mem_map] at hp hp2
    obtain ⟨k, _, rfl⟩ := hp
    obtain ⟨k2, _, heq⟩ := hp2
    exact hne ((Prod.mk.injEq _ _ _ _).mp heq |>.1).symm

/-! ### Claim C1: shape, ordering and cardinality of the sweep table -/

/-- C1 (amended): for non-empty, duplicate-free parameter lists, `run_sweep`
returns one row per pair of the full cross product: the row count is
`|ring counts| * |pump strengths|`, the grid coordinates of the rows are
exactly the cross product in nested-iteration order (outer loop over the
ring counts, inner loop over the pump strengths), with no duplicate
`(ring_count, pump_strength_kHz)` pair; the fixed default grid
`[3, 5, 7] x [50, 150, 300]` yields exactly 9 rows.  (The duplicate-freeness
hypotheses are the amendment: the claim as frozen quantifies over all
non-empty lists, and a repeated entry in a parameter list is reproduced in
the table, see the counterexample.) -/
theorem run_sweep_grid_structure (eval : EvalArgs → ℚ) (N : List ℤ)
    (K : List ℚ) (s : ℤ) (hN : N ≠ []) (hK : K ≠ [])
    (hNd : N.Nodup) (hKd : K.Nodup) :
    (run_sweep eval N K s).length = N.length * K.length ∧
    (run_sweep eval N K s).map rowPair =
      (N.flatMap fun n => K.map fun k => (n, k)) ∧
    ((run_sweep eval N K s).map rowPair).Nodup ∧
    (run_sweep eval [3, 5, 7] [50, 150, 300] s).length = 9 := by
  refine ⟨run_sweep_length eval N K s, run_sweep_map_rowPair eval N K s,
    run_sweep_rowPair_nodup eval N K s hNd hKd, ?_⟩
  rw [run_sweep_length]
  rfl

/-- Witness for C1 at the concrete input `N = [3]`, `K = [50]`, `shots = 1`. -/
theorem run_sweep_grid_structure_witness :
    (run_sweep (fun _ => 1/2) [3] [50] 1).length =
      [(3 : ℤ)].length * [(50 : ℚ)].length ∧
    ((run_sweep (fun _ => 1/2) [3] [50] 1).map rowPair).Nodup :=
  have h := run_sweep_grid_structure (fun _ => 1/2) [3] [50] 1
    (by simp) (by simp) (by simp) (by simp)
  ⟨h.1, h.2.2.1⟩

/-- Counterexample to C1 as frozen: for the non-empty ring-count list
`[3, 3]` (a repeated entry) the table contains the pair `(3, 50)` twice, so
the no-duplicate-pairs invariant fails without a duplicate-freeness
hypothesis on the input lists. -/
theorem run_sweep_duplicate_pair_counterexample :
    ¬ (((run_sweep (fun _ => 1/2) [3, 3] [50] 1).map rowPair).Nodup) := by
  simp [run_sweep, sweepRow, rowPair]

/-! ### Claim C2: the derived parameters handed to the evaluator -/

/-- C2: at the grid point given by the `i`-th ring count and the `j`-th pump
strength, the sweep computes `bias = pump_strength_kHz * 1000 / 50000` and
`measurement_flip_probability = (1/1000) / bias`, and the row's `eps_log` is
the evaluator's answer for code distance 3, `rounds = ring_count`, physical
depolarising rate `1/1000` (the source's `1e-3`), the derived flip
probability, and the given shot count. -/
theorem run_sweep_evaluator_call (eval : EvalArgs → ℚ) (N : List ℤ)
    (K : List ℚ) (s : ℤ) (i j : ℕ) (hi : i < N.length) (hj : j < K.length) :
    (run_sweep eval N K s)[i * K.length + j]? =
      some { N_r := N[i], kappa2_kHz := K[j],
             eps_log := eval
               { distance := 3, rounds := N[i],
                 after_clifford_depolarization := 1/1000,
                 before_measure_flip_probability :=
                   (1/1000) / (K[j] * 1000 / 50000),
                 shots := s } } := by
  rw [run_sweep_getElem? eval N K s i j hi hj]
  rfl

/-- Witness for C2 at ring count 5, pump strength 50 kHz, 7 shots: the bias
is `50 * 1000 / 50000 = 1` and the flip probability `(1/1000) / 1`. -/
theorem run_sweep_evaluator_call_witness :
    (run_sweep (fun a => a.before_measure_flip_probability) [5] [50] 7)[0 * [(50 : ℚ)].length + 0]? =
      some { N_r := [(5 : ℤ)][0], kappa2_kHz := [(50 : ℚ)][0],
             eps_log := (fun a : EvalArgs => a.before_measure_flip_probability)
               { distance := 3, rounds := [(5 : ℤ)][0],
                 after_clifford_depolarization := 1/1000,
                 before_measure_flip_probability :=
                   (1/1000) / ([(50 : ℚ)][0] * 1000 / 50000),
                 shots := 7 } } :=
  run_sweep_evaluator_call (fun a => a.before_measure_flip_probability)
    [5] [50] 7 0 0 (by simp) (by simp)

/-! ### Claim C10: the aggregation is deterministic -/

/-- C10: the aggregation is a deterministic function of its inputs and the
evaluator: two runs with the same ring-count list, pump-strength list and
shot count, and evaluators that agree as functions of their arguments,
produce identical tables row for row. -/
theorem run_sweep_deterministic (eval1 eval2 : EvalArgs → ℚ)
    (h : ∀ a, eval1 a = eval2 a) (N : List ℤ) (K : List ℚ) (s : ℤ) :
    run_sweep eval1 N K s = run_sweep eval2 N K s := by
  have he : eval1 = eval2 := funext h
  rw [he]

/-- Witness for C10: two syntactically different but extensionally equal
evaluators yield the same table. -/
theorem run_sweep_deterministic_witness :
    run_sweep (fun a => a.after_clifford_depolarization) [3] [50] 1 =
      run_sweep (fun a => a.after_clifford_depolarization + 0) [3] [50] 1 :=
  run_sweep_deterministic _ _ (fun a => (add_zero _).symm) [3] [50] 1

/-! ### Claim C3: eps_log is non-increasing in the pump strength -/

/-- The only assumption the spec makes about the evaluator's internals: its
logical error rate is monotone non-decreasing in the measurement-flip
probability, the other arguments held fixed. -/
def MonotoneInMeasFlip (eval : EvalArgs → ℚ) : Prop :=
  ∀ a b : EvalArgs, a.distance = b.distance → a.rounds = b.rounds →
    a.after_clifford_depolarization = b.after_clifford_depolarization →
    a.shots = b.shots →
    a.before_measure_flip_probability ≤ b.before_measure_flip_probability →
    eval a ≤ eval b

/-- C3: for a fixed ring count (row block `i`), the `eps_log` values are
non-increasing as the pump strength increases: whenever the `j2`-th pump
strength is at least the (positive) `j`-th one, the row at `(i, j2)` has an
`eps_log` no larger than the row at `(i, j)` — assuming only that the
evaluator is monotone non-decreasing in its measurement-flip-probability
argument.  (Positivity of the pump strengths is a precondition of the
spec's data model.) -/
theorem run_sweep_eps_log_antitone (eval : EvalArgs → ℚ)
    (hmono : MonotoneInMeasFlip eval) (N : List ℤ) (K : List ℚ) (s : ℤ)
    (i j j2 : ℕ) (hi : i < N.length) (hj : j < K.length) (hj2 : j2 < K.length)
    (hpos : 0 < K[j]) (hle : K[j] ≤ K[j2]) :
    ∀ a b : ResultRow,
      (run_sweep eval N K s)[i * K.length + j]? = some a →
      (run_sweep eval N K s)[i * K.length + j2]? = some b →
      b.eps_log ≤ a.eps_log := by
  intro a b ha hb
  rw [run_sweep_getElem? eval N K s i j hi hj] at ha
  rw [run_sweep_getElem? eval N K s i j2 hi hj2] at hb
  obtain rfl : sweepRow eval s N[i] K[j] = a := Option.some.inj ha
  obtain rfl : sweepRow eval s N[i] K[j2] = b := Option.some.inj hb
  have hbj : (0 : ℚ) < K[j] * 1000 / 50000 := by positivity
  have hble : K[j] * 1000 / 50000 ≤ K[j2] * 1000 / 50000 := by
    have h1000 : K[j] * 1000 ≤ K[j2] * 1000 := by nlinarith
    exact div_le_div_of_nonneg_right h1000 (by norm_num)
  have hflip : p_phys_default / (K[j2] * 1000 / 50000) ≤
      p_phys_default / (K[j] * 1000 / 50000) :=
    div_le_div_of_nonneg_left (by norm_num [p_phys_default]) hbj hble
  exact hmono _ _ rfl rfl rfl rfl hflip

/-- Witness for C3: evaluator = the measurement-flip probability itself
(monotone), grid `[3] x [50, 150]`: the row at pump strength 150 kHz has
`eps_log = 1/3000`, no larger than `1/1000` at 50 kHz. -/
theorem run_sweep_eps_log_antitone_witness :
    ({ N_r := 3, kappa2_kHz := 150, eps_log := 1/3000 } : ResultRow).eps_log ≤
      ({ N_r := 3, kappa2_kHz := 50, eps_log := 1/1000 } : ResultRow).eps_log :=
  run_sweep_eps_log_antitone (fun a => a.before_measure_flip_probability)
    (fun _ _ _ _ _ _ h5 => h5) [3] [50, 150] 1 0 0 1
    (by simp) (by simp) (by simp) (by norm_num) (by norm_num)
    { N_r := 3, kappa2_kHz := 50, eps_log := 1/1000 }
    { N_r := 3, kappa2_kHz := 150, eps_log := 1/3000 }
    (by simp [run_sweep, sweepRow, logical_error_rate, p_phys_default]; norm_num)
    (by simp [run_sweep, sweepRow, logical_error_rate, p_phys_default]; norm_num)

/-! ### Claim C4: range of eps_log -/

/-- C4 (amended): every `eps_log` value in the table lies in the closed
interval `[0, 1]`, given that the evaluator returns values in `[0, 1]` —
which is exactly the contract the spec gives the evaluator (a fraction of
shots).  The frozen claim's strict open interval `(0, 1)` is not implied by
that contract: an evaluator observing zero failing shots returns exactly 0
(see the counterexample). -/
theorem run_sweep_eps_log_bounds (eval : EvalArgs → ℚ)
    (hE : ∀ a : EvalArgs, 0 ≤ eval a ∧ eval a ≤ 1)
    (N : List ℤ) (K : List ℚ) (s : ℤ) :
    ∀ r ∈ run_sweep eval N K s, 0 ≤ r.eps_log ∧ r.eps_log ≤ 1 := by
  intro r hr
  simp only [run_sweep, List.mem_flatMap, List.mem_map] at hr
  obtain ⟨n, _, k, _, rfl⟩ := hr
  exact hE _

/-- Witness for C4 at a constant evaluator `1/2` on the grid `[3] x [50]`. -/
theorem run_sweep_eps_log_bounds_witness :
    0 ≤ ({ N_r := 3, kappa2_kHz := 50, eps_log := 1/2 } : ResultRow).eps_log ∧
      ({ N_r := 3, kappa2_kHz := 50, eps_log := 1/2 } : ResultRow).eps_log ≤ 1 :=
  run_sweep_eps_log_bounds (fun _ => 1/2) (fun _ => by norm_num) [3] [50] 1
    { N_r := 3, kappa2_kHz := 50, eps_log := 1/2 } (by
      simp [run_sweep, sweepRow, logical_error_rate])

/-- Counterexample to C4 as frozen: an evaluator that observes no failing
shot returns exactly 0 — within the spec's own `[0, 1]` evaluator contract —
and the resulting table then contains an `eps_log` of 0, which does not lie
strictly in `(0, 1)`. -/
theorem run_sweep_eps_log_zero_counterexample :
    ({ N_r := 3, kappa2_kHz := 50, eps_log := 0 } : ResultRow) ∈
      run_sweep (fun _ => 0) defaultRingCounts defaultPumpStrengths 10000 ∧
    ¬ (0 < ({ N_r := 3, kappa2_kHz := 50, eps_log := 0 } : ResultRow).eps_log) := by
  constructor
  · simp [run_sweep, sweepRow, logical_error_rate, defaultRingCounts,
      defaultPumpStrengths]
  · norm_num

/-! ### Claims about the fallible model -/

/-- With an empty pump-strength list, the outer loop never touches the
accumulated records. -/
theorem sweepOuterE_nil_inner {ε : Type} (eval : EvalArgs → Except ε ℚ)
    (s : ℤ) (N : List ℤ) (acc : List ResultRow) :
    sweepOuterE eval [] s acc N = Except.ok acc := by
  induction N generalizing acc with
  | nil => rfl
  | cons n N ih => exact ih acc

/-- C5 (amended): `run_sweep` performs no emptiness validation.  With an
empty ring-count list or an empty pump-strength list it returns successfully
with an empty table — no exception, no nonzero exit.  (The frozen claim's
reported-error behaviour is refuted by the counterexample; the entry point
only ever passes the fixed non-empty grid, and the only configuration it
validates is the shot count.) -/
theorem run_sweepE_empty_lists {ε : Type} (eval : EvalArgs → Except ε ℚ)
    (N : List ℤ) (K : List ℚ) (s : ℤ) :
    run_sweepE eval [] K s = Except.ok [] ∧
    run_sweepE eval N [] s = Except.ok [] :=
  ⟨rfl, sweepOuterE_nil_inner eval s N []⟩

/-- Counterexample to C5 as frozen: with an empty ring-count list the sweep
does not fail with a usage error — it returns a (successful, empty) table. -/
theorem run_sweepE_empty_counterexample :
    run_sweepE (ε := Unit) (fun _ => Except.ok 0) [] [50] 10 =
      Except.ok [] := rfl

/-- C6: the entry point rejects every non-positive shot count with
`SystemExit(1)` before any sweep work — the outcome does not depend on the
evaluator — and therefore produces no filesystem effects (the action list
only exists on the `ok` branch); the argparse default for `--shots` is
10000. -/
theorem main_rejects_nonpositive_shots :
    defaultShots = 10000 ∧
    ∀ (ε : Type) (eval eval2 : EvalArgs → Except ε ℚ) (shots : ℤ),
      shots ≤ 0 →
      main eval shots = Except.error (SweepError.usageExit 1) ∧
      main eval shots = main eval2 shots := by
  refine ⟨rfl, fun ε eval eval2 shots hs => ?_⟩
  rw [main, main, if_pos hs, if_pos hs]
  exact ⟨rfl, rfl⟩

/-- Witness for C6 at `shots = 0` and `shots = -7`. -/
theorem main_rejects_nonpositive_shots_witness :
    main (ε := Unit) (fun _ => Except.ok 0) 0 =
      Except.error (SweepError.usageExit 1) ∧
    main (ε := Unit) (fun _ => Except.ok 0) (-7) =
      Except.error (SweepError.usageExit 1) :=
  ⟨(main_rejects_nonpositive_shots.2 Unit _ (fun _ => Except.error ()) 0
      (by norm_num)).1,
   (main_rejects_nonpositive_shots.2 Unit _ (fun _ => Except.error ()) (-7)
      (by norm_num)).1⟩

/-- C7: if the sweep over the fixed grid raises, the entry point propagates
exactly that error — the run aborts, the `ok` action list (which is the only
place the directory creation and CSV write occur) is never produced, so the
filesystem is untouched. -/
theorem main_evaluator_failure {ε : Type} (eval : EvalArgs → Except ε ℚ)
    (shots : ℤ) (e : SweepError ε) (hs : 0 < shots)
    (hfail : run_sweepE eval defaultRingCounts defaultPumpStrengths shots =
      Except.error e) :
    main eval shots = Except.error e ∧
    ∀ acts : List FsAction, main eval shots ≠ Except.ok acts := by
  have hmain : main eval shots = Except.error e := by
    rw [main, if_neg (by omega), hfail]
  exact ⟨hmain, fun acts hacts => by rw [hmain] at hacts; exact absurd hacts (by simp)⟩

/-- Witness for C7: an evaluator that raises on every call makes `main`
return exactly that evaluator error. -/
theorem main_evaluator_failure_witness :
    main (ε := Unit) (fun _ => Except.error ()) 1 =
      Except.error (SweepError.evaluator ()) :=
  (main_evaluator_failure (fun _ => Except.error ()) 1
    (SweepError.evaluator ()) (by norm_num)
    (by simp [run_sweepE, sweepOuterE, sweepInnerE, logical_error_rateE,
      defaultRingCounts, defaultPumpStrengths, p_phys_default])).1

/-- C8: on success, the entry point performs exactly three filesystem
effects in order: create the `results` directory idempotently
(`exist_ok = true`), write `results/epsilon_log.csv` whose header is exactly
`N_r,kappa2_kHz,eps_log` followed by one line per table row in table order,
and save the plot. -/
theorem main_writes_csv {ε : Type} (eval : EvalArgs → Except ε ℚ)
    (shots : ℤ) (df : List ResultRow) (hs : 0 < shots)
    (hok : run_sweepE eval defaultRingCounts defaultPumpStrengths shots =
      Except.ok df) :
    main eval shots =
      Except.ok [FsAction.mkdir "results" true,
                 FsAction.writeCsv "results/epsilon_log.csv" (to_csv df),
                 FsAction.savefig "results/grid_sweep.png"] ∧
    (to_csv df).header = "N_r,kappa2_kHz,eps_log" ∧
    (to_csv df).rows = df := by
  refine ⟨?_, rfl, rfl⟩
  rw [main, if_neg (by omega), hok]

/-- Witness for C8: constant evaluator `1/2`, one shot.  The sweep succeeds
with the 9 grid rows and `main` performs exactly the mkdir / CSV / plot
effects, the CSV header being `N_r,kappa2_kHz,eps_log`. -/
theorem main_writes_csv_witness :
    main (ε := Unit) (fun _ => Except.ok (1/2)) 1 =
      Except.ok [FsAction.mkdir "results" true,
                 FsAction.writeCsv "results/epsilon_log.csv"
                   (to_csv [{ N_r := 3, kappa2_kHz := 50, eps_log := 1/2 },
                            { N_r := 3, kappa2_kHz := 150, eps_log := 1/2 },
                            { N_r := 3, kappa2_kHz := 300, eps_log := 1/2 },
                            { N_r := 5, kappa2_kHz := 50, eps_log := 1/2 },
                            { N_r := 5, kappa2_kHz := 150, eps_log := 1/2 },
                            { N_r := 5, kappa2_kHz := 300, eps_log := 1/2 },
                            { N_r := 7, kappa2_kHz := 50, eps_log := 1/2 },
                            { N_r := 7, kappa2_kHz := 150, eps_log := 1/2 },
                            { N_r := 7, kappa2_kHz := 300, eps_log := 1/2 }]),
                 FsAction.savefig "results/grid_sweep.png"] ∧
    (to_csv [{ N_r := 3, kappa2_kHz := 50, eps_log := 1/2 },
             { N_r := 3, kappa2_kHz := 150, eps_log := 1/2 },
             { N_r := 3, kappa2_kHz := 300, eps_log := 1/2 },
             { N_r := 5, kappa2_kHz := 50, eps_log := 1/2 },
             { N_r := 5, kappa2_kHz := 150, eps_log := 1/2 },
             { N_r := 5, kappa2_kHz := 300, eps_log := 1/2 },
             { N_r := 7, kappa2_kHz := 50, eps_log := 1/2 },
             { N_r := 7, kappa2_kHz := 150, eps_log := 1/2 },
             { N_r := 7, kappa2_kHz := 300, eps_log := 1/2 }]).header =
      "N_r,kappa2_kHz,eps_log" := by
  have h := main_writes_csv (ε := Unit) (fun _ => Except.ok (1/2)) 1
    [{ N_r := 3, kappa2_kHz := 50, eps_log := 1/2 },
     { N_r := 3, kappa2_kHz := 150, eps_log := 1/2 },
     { N_r := 3, kappa2_kHz := 300, eps_log := 1/2 },
     { N_r := 5, kappa2_kHz := 50, eps_log := 1/2 },
     { N_r := 5, kappa2_kHz := 150, eps_log := 1/2 },
     { N_r := 5, kappa2_kHz := 300, eps_log := 1/2 },
     { N_r := 7, kappa2_kHz := 50, eps_log := 1/2 },
     { N_r := 7, kappa2_kHz := 150, eps_log := 1/2 },
     { N_r := 7, kappa2_kHz := 300, eps_log := 1/2 }]
    (by norm_num)
    (by simp [run_sweepE, sweepOuterE, sweepInnerE, logical_error_rateE,
      defaultRingCounts, defaultPumpStrengths, p_phys_default])
  exact ⟨h.1, h.2.1⟩

/-! ### Coherence of the two embeddings

With an evaluator that never raises, the fallible model agrees with the pure
one on any grid of nonzero pump strengths (for a zero pump strength the pure
model cannot represent the `ZeroDivisionError`). -/

/-- An always-succeeding evaluator, as a fallible one. -/
def pureEval {ε : Type} (eval : EvalArgs → ℚ) : EvalArgs → Except ε ℚ :=
  fun a => Except.ok (eval a)

/-- The inner loop under an infallible evaluator appends exactly the pure
rows. -/
theorem sweepInnerE_pure {ε : Type} (eval : EvalArgs → ℚ) (n : ℤ) (s : ℤ)
    (K : List ℚ) (hK : ∀ k ∈ K, k ≠ 0) (acc : List ResultRow) :
    sweepInnerE (ε := ε) (pureEval eval) n s acc K =
      Except.ok (acc ++ K.map (sweepRow eval s n)) := by
  induction K generalizing acc with
  | nil => simp [sweepInnerE]
  | cons k K ih =>
    have hk : k ≠ 0 := hK k (by simp)
    have hbz : ¬ (k * 1000 / 50000 = 0) := by
      simp [div_eq_zero_iff, hk]
    rw [sweepInnerE, logical_error_rateE, if_neg hbz]
    simp only [pureEval]
    rw [ih (fun k2 hk2 => hK k2 (by simp [hk2]))]
    simp [sweepRow, logical_error_rate]

/-- `run_sweepE` refines `run_sweep`: under an infallible evaluator and
nonzero pump strengths the fallible sweep returns exactly the pure table. -/
theorem run_sweepE_pure {ε : Type} (eval : EvalArgs → ℚ) (N : List ℤ)
    (K : List ℚ) (s : ℤ) (hK : ∀ k ∈ K, k ≠ 0) :
    run_sweepE (ε := ε) (pureEval eval) N K s =
      Except.ok (run_sweep eval N K s) := by
  suffices h : ∀ (N : List ℤ) (acc : List ResultRow),
      sweepOuterE (ε := ε) (pureEval eval) K s acc N =
        Except.ok (acc ++ run_sweep eval N K s) by
    simpa using h N []
  intro N
  induction N with
  | nil => simp [sweepOuterE, run_sweep]
  | cons n N ih =>
    intro acc
    rw [sweepOuterE, sweepInnerE_pure eval n s K hK]
    rw [show (match Except.ok (acc ++ K.map (sweepRow eval s n)) with
        | Except.error e => (Except.error e : Except (SweepError ε) (List ResultRow))
        | Except.ok acc2 => sweepOuterE (pureEval eval) K s acc2 N) =
        sweepOuterE (ε := ε) (pureEval eval) K s
          (acc ++ K.map (sweepRow eval s n)) N from rfl]
    rw [ih, run_sweep_cons]
    simp

/-! ### Claim C9: the division by zero is unreachable for positive strength -/

/-- C9: the `ZeroDivisionError` branch of `meas_flip = p_phys / beta` is
taken exactly when `kappa2_hz = 0`: for every nonzero (in particular every
positive) pump strength the bias `beta = kappa2_hz / 50000` is nonzero and
the derivation is well-defined; moreover a positive `kappa2_hz` gives a
strictly positive bias. -/
theorem logical_error_rateE_zero_division {ε : Type}
    (eval : EvalArgs → Except ε ℚ) (N_r : ℤ) (kappa2_hz : ℚ) (shots : ℤ)
    (p_phys : ℚ) :
    (logical_error_rateE eval N_r kappa2_hz shots p_phys =
        Except.error SweepError.zeroDivision ↔ kappa2_hz = 0) ∧
    (0 < kappa2_hz → 0 < kappa2_hz / 50000) := by
  constructor
  · rw [logical_error_rateE]
    by_cases hz : kappa2_hz / 50000 = 0
    · rw [if_pos hz]
      simp only [true_iff]
      rcases div_eq_zero_iff.mp hz with h | h
      · exact h
      · exact absurd h (by norm_num)
    · rw [if_neg hz]
      have hk : ¬ kappa2_hz = 0 := fun h => hz (by rw [h]; norm_num)
      simp only [hk, iff_false]
      cases heval : eval (EvalArgs.mk 3 N_r p_phys
          (p_phys / (kappa2_hz / 50000)) shots) with
      | ok v => simp [heval]
      | error e => simp [heval]
  · intro h
    positivity

/-- Witness for C9: at `kappa2_hz = 0` the derivation raises
`ZeroDivisionError`, and at `kappa2_hz = 50000` the bias is positive. -/
theorem logical_error_rateE_zero_division_witness :
    logical_error_rateE (ε := Unit) (fun _ => Except.ok 0) 3 0 1 (1/1000) =
      Except.error SweepError.zeroDivision ∧
    (0 : ℚ) < 50000 / 50000 :=
  ⟨(logical_error_rateE_zero_division (fun _ => Except.ok 0) 3 0 1
      (1/1000)).1.mpr rfl,
   (logical_error_rateE_zero_division (ε := Unit) (fun _ => Except.ok 0) 3
      50000 1 (1/1000)).2 (by norm_num)⟩

end Waveguide
